import Mathlib

set_option maxRecDepth 100000

/-!
Verification of the LulaRobotDescription sphere-editor extension.

This file gives a shallow embedding of the two algorithmic components of the
repository and proves properties about them:

* the gap detector `_get_grid_points` from
  `exts/sphere_editor/Sphere_Editor_python/ui_builder.py` (grid enumeration,
  circular masking, binarization, float acceptance test, centering transform);
* the unique path allocator and `add_sphere` from
  `exts/sphere_editor/Sphere_Editor_python/sphere_editor.py`.

Machine integers are modelled as `Nat`/`Int` (no overflow is reachable at the
sizes involved); Python `float` (IEEE binary64) arithmetic is modelled exactly
with dyadic numbers `m · 2^e` and an explicit round-to-53-bit-significand,
ties-to-even operation.  Python exceptions are modelled with `Except`,
nontermination of the allocator's retry loop with fuel (`Option`).
-/

/-! ### Exact binary64 arithmetic

The code compares `circle_sum` (an integer) against
`3.14 * radius * radius - thredhold`, evaluated in Python floats, i.e. IEEE-754
binary64 with round to nearest, ties to even.  Every value reachable in this
development is in the normal range (far from overflow and from subnormals), and
the integers involved are far below `2 ^ 53`, so int-to-float conversions are
exact.  A binary64 value is therefore modelled as the exact dyadic rational
`m · 2 ^ e` it denotes, and each arithmetic operation as the exact operation
followed by rounding of the result to 53 significant bits, ties to even. -/

/-- Number of binary digits of `n` (`0` for `0`); the fuel argument of the
worker only bounds the recursion depth and is consumed once per bit. -/
def bitLen (n : Nat) : Nat :=
  go (n + 1) n
where
  go : Nat → Nat → Nat
    | 0, _ => 0
    | fuel + 1, m => if m = 0 then 0 else go fuel (m / 2) + 1

/-- A binary64 float in the normal range, as the exact dyadic value
`m · 2 ^ e` (not necessarily normalized). -/
structure F64 where
  m : ℤ
  e : ℤ
deriving DecidableEq

/-- The exact rational value of a dyadic float. -/
def F64.val (f : F64) : ℚ := (f.m : ℚ) * 2 ^ f.e

/-- Round the exact dyadic value `M · 2 ^ E` to 53 significant bits, ties to
even: the IEEE-754 binary64 rounding of an exact intermediate result. -/
def F64.round (M E : ℤ) : F64 :=
  let s := bitLen M.natAbs
  if s ≤ 53 then ⟨M, E⟩
  else
    let k := s - 53
    let q := M.fdiv (2 ^ k)
    let r := M - q * 2 ^ k
    let half : ℤ := 2 ^ (k - 1)
    let q' := if r < half then q
              else if half < r then q + 1
              else if q % 2 = 0 then q else q + 1
    ⟨q', E + k⟩

/-- Float times (exactly converted) integer, rounded: `f * n` in binary64. -/
def F64.mulNat (f : F64) (n : Nat) : F64 :=
  F64.round (f.m * n) f.e

/-- Float minus (exactly converted) integer, rounded: `f - n` in binary64. -/
def F64.subNat (f : F64) (n : Nat) : F64 :=
  if 0 ≤ f.e then F64.round (f.m * 2 ^ f.e.toNat - n) 0
  else F64.round (f.m - n * 2 ^ (-f.e).toNat) f.e

/-- The comparison `n < f` between an integer (exactly converted, as all ints
here are far below `2 ^ 53`) and a float, decided exactly. -/
def F64.intLt (n : ℤ) (f : F64) : Bool :=
  if 0 ≤ f.e then decide (n < f.m * 2 ^ f.e.toNat)
  else decide (n * 2 ^ (-f.e).toNat < f.m)

theorem F64.intLt_iff (n : ℤ) (f : F64) : F64.intLt n f = true ↔ (n : ℚ) < f.val := by
  unfold F64.intLt F64.val
  split
  next h =>
    rw [decide_eq_true_eq]
    obtain ⟨k, hk⟩ : ∃ k : ℕ, f.e = (k : ℤ) := ⟨f.e.toNat, by omega⟩
    have hk2 : f.e.toNat = k := by omega
    rw [hk2, hk, zpow_natCast]
    exact_mod_cast Iff.rfl
  next h =>
    rw [decide_eq_true_eq]
    obtain ⟨k, hk⟩ : ∃ k : ℕ, f.e = -(k : ℤ) := ⟨(-f.e).toNat, by omega⟩
    have hk2 : (-f.e).toNat = k := by omega
    rw [hk2, hk, zpow_neg, zpow_natCast, ← div_eq_mul_inv,
      lt_div_iff₀ (by positivity : (0 : ℚ) < 2 ^ k)]
    exact_mod_cast Iff.rfl

/-- The binary64 value closest to the literal `3.14` appearing in
`ui_builder.py`: `3.14` rounds to `7070651414971679 · 2 ^ (-51)`. -/
def float3_14 : F64 := ⟨7070651414971679, -51⟩

/-- Sanity check: `float3_14` is what `314/100` rounds to: it is within half an
ulp (`2 ^ (-52)`) of `3.14`. -/
example : |float3_14.val - 314 / 100| ≤ 1 / 2 ^ 52 := by
  norm_num [float3_14, F64.val]
  rw [abs_le]
  norm_num

/-- The binary64 value closest to π (`math.pi`), used by the specification's
acceptance test: `884279719003555 · 2 ^ (-48)`. -/
def pi_f64 : ℚ := 884279719003555 / 2 ^ 48

/-! ### The gap detector (`ui_builder.py`, `_get_grid_points`) -/

/-- A grayscale image: `pixel y x` is the intensity at row `y`, column `x`
(the numpy array is indexed `[y, x]`). -/
structure Image where
  height : Nat
  width : Nat
  pixel : Nat → Nat → Nat

/-- `binary_img = (gray_img > 200).astype(int)`: 1 on foreground
(intensity strictly above the hard-coded cutoff 200), 0 on background. -/
def binary_img (img : Image) (y x : Nat) : Nat :=
  if 200 < img.pixel y x then 1 else 0

/-- `np.arange(start, stop, step)` on natural numbers:
`[start, start+step, ...)` strictly below `stop`. -/
def arange (start stop step : Nat) : List Nat :=
  (List.range ((stop - start + step - 1) / step)).map (fun i => start + step * i)

/-- The grid lattice: `np.meshgrid(x_coords, y_coords)` with
`x_coords = np.arange(radius, width - radius, 2*radius)` (and analogously for
`y`), ravelled row-major and column-stacked into `(x, y)` pairs, i.e. all
`(x, y)` enumerated with `y` outermost. -/
def grid_points (width height radius : Nat) : List (Nat × Nat) :=
  (arange radius (height - radius) (2 * radius)).flatMap fun y =>
    (arange radius (width - radius) (2 * radius)).map fun x => (x, y)

/-- `circle_sum = np.sum(binary_img[mask])` where
`mask = sqrt((x_grid-x)² + (y_grid-y)²) <= radius` over the whole image.
The distances are computed with a correctly rounded `sqrt` on exactly
representable integer squares below 2⁵³, and `radius` is an integer, so the
float comparison `sqrt(d²) <= radius` holds exactly when `d² ≤ radius²`;
the mask is embedded by that integer inequality. -/
def circle_sum (img : Image) (radius x y : Nat) : Nat :=
  ∑ yg ∈ Finset.range img.height, ∑ xg ∈ Finset.range img.width,
    if ((xg : ℤ) - x) ^ 2 + ((yg : ℤ) - y) ^ 2 ≤ (radius : ℤ) ^ 2 then
      binary_img img yg xg
    else 0

/-- The acceptance bound `3.14 * radius * radius - thredhold` evaluated in
binary64 exactly as Python does (left-associated, each operation rounded). -/
def acceptBound (radius thredhold : Nat) : F64 :=
  F64.subNat (F64.mulNat (F64.mulNat float3_14 radius) radius) thredhold

/-- The test `circle_sum < 3.14 * radius * radius - thredhold`:
`circle_sum` is far below 2⁵³, so its conversion to float is exact and the
mixed comparison is exact. -/
def accepts (img : Image) (radius thredhold x y : Nat) : Bool :=
  F64.intLt (circle_sum img radius x y) (acceptBound radius thredhold)

/-- Sanity check: the bound for the hard-coded `radius = 10`, `thredhold = 50`
is exactly 264 (`3.14 * 10` rounds up to `31.400000000000002`, whose product
with 10 rounds back down to exactly `314.0`). -/
example : (acceptBound 10 50).m = 4644337115725824 ∧ (acceptBound 10 50).e = -44 := by
  constructor <;> decide

/-- The accepted grid points, in grid order (the `sphere_points` list built
by the loop in `_get_grid_points`). -/
def sphere_points (img : Image) (radius thredhold : Nat) : List (Nat × Nat) :=
  (grid_points img.width img.height radius).filter fun p =>
    accepts img radius thredhold p.1 p.2

/-- The centering transform `[e[0] - width / 2, height / 2 - e[1]]`.
`width / 2` is Python float division; halves of integers of this size are
exactly representable, as are the differences, so the arithmetic is exact
and is modelled directly over ℚ. -/
def toCartesian (width height : Nat) (e : Nat × Nat) : ℚ × ℚ :=
  ((e.1 : ℚ) - width / 2, (height : ℚ) / 2 - e.2)

/-- The value returned by `_get_grid_points` on a successfully decoded image,
with the hard-coded `radius = 10` and `thredhold = 50` kept as parameters:
`[[e[0] - width / 2, height / 2 - e[1]] for e in sphere_points], radius`. -/
def gapDetect (img : Image) (radius thredhold : Nat) : List (ℚ × ℚ) × Nat :=
  ((sphere_points img radius thredhold).map (toCartesian img.width img.height),
    radius)

/-- `_get_grid_points` end to end: `cv2.imread` returning `None` is modelled
by the `none` input, on which the function prints an error and returns `None`
(it does not raise); otherwise it runs the detector with the hard-coded
`radius = 10` and `thredhold = 50`. -/
def _get_grid_points (input : Option Image) : Option (List (ℚ × ℚ) × Nat) :=
  input.map fun img => gapDetect img 10 50

/-- Modelled from the spec: the specification's acceptance test
`circle_sum < π·radius² − threshold` with `π` "a standard double-precision
approximation", i.e. the binary64 value of `math.pi`.  Named definition used
only to compare the spec's claim C2 against the code's `accepts`. -/
def acceptsSpec (cs radius thredhold : Nat) : Prop :=
  (cs : ℚ) < pi_f64 * radius ^ 2 - thredhold

/-! ### Concrete images used as witnesses and counterexamples -/

/-- A 100×100 all-background image (every pixel 0, i.e. below the cutoff). -/
def imgBg100 : Image := ⟨100, 100, fun _ _ => 0⟩

/-- A 100×100 all-foreground image (every pixel 255). -/
def imgFg100 : Image := ⟨100, 100, fun _ _ => 255⟩

/-- A 9×9 all-foreground image. -/
def imgFg9 : Image := ⟨9, 9, fun _ _ => 255⟩

/-- A 100×100 image whose radius-10 disk around the grid point (10, 10)
contains exactly 264 foreground pixels. -/
def imgW264 : Image :=
  ⟨100, 100, fun y x => if y ≤ 15 ∨ (y = 16 ∧ (x = 9 ∨ x = 10)) then 255 else 0⟩

example : circle_sum imgFg9 4 4 4 = 49 := by decide

/-! ### The unique path allocator (`sphere_editor.py`) -/

/-- Python exceptions that the allocator can surface: a `LookupError`-style
failure of the externally supplied existence predicate `is_prim_path_valid`,
and the `IndexError` raised by `link_path[-1]` on an empty string. -/
inductive PyError where
  | lookupError : PyError
  | indexError : PyError
deriving DecidableEq

deriving instance DecidableEq for Except

/-- The candidate identifier `f"{path}_{count}"` yielded by `_path_generator`. -/
def pathWithCount (path : String) (count : Nat) : String :=
  path ++ "_" ++ toString count

/-- `link_path + "/collision_sphere"`. -/
def _get_collision_sphere_base_path (link_path : String) : String :=
  link_path ++ "/collision_sphere"

/-- The retry loop of `_get_unused_collision_sphere_path` for one generator:
the state `count` is the next integer the generator (`_path_generator`) will
yield (`count = 1` for a fresh generator).  Each iteration first advances the
generator (`next(...)`) and then tests `is_prim_path_valid` (`valid`), which
may raise (the `Except.error` case), in which case the exception propagates
with the generator already advanced past the failing candidate.  `fuel`
bounds the number of iterations; `none` models nontermination. -/
def getUnusedLoop (valid : String → Except PyError Bool) (path : String) :
    Nat → Nat → Option (Except PyError String × Nat)
  | 0, _ => none
  | fuel + 1, count =>
    let sphere_path := pathWithCount path count
    match valid sphere_path with
    | Except.error e => some (Except.error e, count + 1)
    | Except.ok true => getUnusedLoop valid path fuel (count + 1)
    | Except.ok false => some (Except.ok sphere_path, count + 1)

/-- Lookup in an association-list model of a Python dict (first match wins;
updates are consed in front, shadowing older entries). -/
def dictGet (d : List (String × α)) (k : String) : Option α :=
  match d with
  | [] => none
  | (k₂, v) :: rest => if k = k₂ then some v else dictGet rest k

/-- Dict update `d[k] = v` (cons-with-shadowing). -/
def dictSet (d : List (String × α)) (k : String) (v : α) : List (String × α) :=
  (k, v) :: d

/-- `self._sphere_path_generators`: per base path, the state of its
`_path_generator` (the next integer it will yield). -/
abbrev GeneratorDict := List (String × Nat)

/-- `_get_unused_collision_sphere_path`: looks up (creating lazily, with
`count = 1`) the generator for `link_path + "/collision_sphere"` and runs the
retry loop; the generator state left behind is recorded in all cases,
including when the predicate raises. -/
def _get_unused_collision_sphere_path (valid : String → Except PyError Bool)
    (gens : GeneratorDict) (link_path : String) (fuel : Nat) :
    Option (Except PyError String × GeneratorDict) :=
  let sphere_base_path := _get_collision_sphere_base_path link_path
  let count := match dictGet gens sphere_base_path with
    | some c => c
    | none => 1
  match getUnusedLoop valid sphere_base_path fuel count with
  | none => none
  | some (r, count₂) => some (r, dictSet gens sphere_base_path count₂)

/-- The scene object created by `VisualSphere(sphere_path, translation=center,
radius=radius, color=np.array([1.0, 1.0, 0.0]))`; its `prim_path` is the path
it was created at. -/
structure VisualSphere where
  prim_path : String
  translation : ℚ × ℚ × ℚ
  radius : ℚ
  color : ℚ × ℚ × ℚ
deriving DecidableEq

/-- The mutable state of a `SphereEditor`: the generator dict and the
`path_2_spheres` registry (insertion-ordered mapping from issued prim path to
the created sphere). -/
structure SphereEditorState where
  _sphere_path_generators : GeneratorDict
  path_2_spheres : List (String × VisualSphere)
deriving DecidableEq

/-- A freshly constructed `SphereEditor`. -/
def SphereEditorState.init : SphereEditorState := ⟨[], []⟩

/-- Registry update `self.path_2_spheres[sphere.prim_path] = sphere`:
replace in place if present, append otherwise (Python dict semantics). -/
def registrySet (d : List (String × VisualSphere)) (k : String)
    (v : VisualSphere) : List (String × VisualSphere) :=
  if d.any (fun p => p.1 = k) then
    d.map fun p => if p.1 = k then (k, v) else p
  else d ++ [(k, v)]

/-- `add_sphere(link_path, center, radius)`: calls `is_prim_path_valid` on
`link_path` (warning only; but an exception there propagates), strips one
trailing `'/'` (`link_path[-1]` raises `IndexError` on the empty string),
allocates an unused path, creates the sphere and records it.  Returns the
issued path together with the editor state after the call. -/
def add_sphere (valid : String → Except PyError Bool) (st : SphereEditorState)
    (link_path : String) (center : ℚ × ℚ × ℚ) (radius : ℚ) (fuel : Nat) :
    Option (Except PyError String × SphereEditorState) :=
  match valid link_path with
  | Except.error e => some (Except.error e, st)
  | Except.ok _ =>
    if link_path = "" then some (Except.error PyError.indexError, st)
    else
      let link_path₂ := if link_path.back = '/' then link_path.dropRight 1
                        else link_path
      match _get_unused_collision_sphere_path valid
          st._sphere_path_generators link_path₂ fuel with
      | none => none
      | some (Except.error e, gens₂) =>
        some (Except.error e, { st with _sphere_path_generators := gens₂ })
      | some (Except.ok sphere_path, gens₂) =>
        let sphere : VisualSphere :=
          ⟨sphere_path, center, radius, (1, 1, 0)⟩
        some (Except.ok sphere_path,
          ⟨gens₂, registrySet st.path_2_spheres sphere.prim_path sphere⟩)

/-- `n` successive calls of the allocator's retry loop for a fixed parent
path, threading the generator state and collecting the issued identifiers. -/
def allocList (valid : String → Except PyError Bool) (path : String)
    (fuel : Nat) : Nat → Nat → Option (List String × Nat)
  | 0, count => some ([], count)
  | n + 1, count =>
    match getUnusedLoop valid path fuel count with
    | some (Except.ok p, count₂) =>
      match allocList valid path fuel n count₂ with
      | some (ps, count₃) => some (p :: ps, count₃)
      | none => none
    | _ => none

example :
    getUnusedLoop (fun _ => Except.ok false) "/a" 3 1
      = some (Except.ok "/a_1", 2) := by decide

example :
    add_sphere (fun _ => Except.ok false) SphereEditorState.init "/World/spheres"
        (0, 0, 0) 1 3
      = some (Except.ok "/World/spheres/collision_sphere_1",
          ⟨[("/World/spheres/collision_sphere", 2)],
           [("/World/spheres/collision_sphere_1",
             ⟨"/World/spheres/collision_sphere_1", (0, 0, 0), 1, (1, 1, 0)⟩)]⟩) := by
  decide

/-! ### Decimal numerals are injective

`pathWithCount` builds `f"{path}_{count}"` via `Nat.repr`; to show distinct
counters give distinct identifiers we prove that decimal printing is
injective, by exhibiting a left inverse (`digitsVal`). -/

/-- The numeric value of a list of decimal digit characters. -/
def digitsVal (l : List Char) : Nat :=
  l.foldl (fun a c => 10 * a + (c.toNat - 48)) 0

lemma toDigitsCore_acc (b : ℕ) : ∀ (fuel n : ℕ) (ds : List Char),
    Nat.toDigitsCore b fuel n ds = Nat.toDigitsCore b fuel n [] ++ ds := by
  intro fuel
  induction fuel with
  | zero => intro n ds; simp [Nat.toDigitsCore]
  | succ f ih =>
    intro n ds
    simp only [Nat.toDigitsCore]
    by_cases h : n / b = 0
    · simp [h]
    · rw [if_neg h, if_neg h, ih (n / b) (Nat.digitChar (n % b) :: ds),
        ih (n / b) [Nat.digitChar (n % b)], List.append_assoc, List.singleton_append]

lemma toDigitsCore_fuel : ∀ (n fuel₁ fuel₂ : ℕ), n < fuel₁ → n < fuel₂ →
    Nat.toDigitsCore 10 fuel₁ n [] = Nat.toDigitsCore 10 fuel₂ n [] := by
  intro n
  induction n using Nat.strong_induction_on with
  | _ n ih =>
    intro fuel₁ fuel₂ h₁ h₂
    obtain ⟨f₁, rfl⟩ : ∃ f, fuel₁ = f + 1 := ⟨fuel₁ - 1, by omega⟩
    obtain ⟨f₂, rfl⟩ : ∃ f, fuel₂ = f + 1 := ⟨fuel₂ - 1, by omega⟩
    simp only [Nat.toDigitsCore]
    by_cases h : n / 10 = 0
    · simp [h]
    · rw [if_neg h, if_neg h, toDigitsCore_acc, toDigitsCore_acc 10 f₂]
      rw [ih (n / 10) (by omega) f₁ f₂ (by omega) (by omega)]

lemma toDigits10 (n : ℕ) : Nat.toDigits 10 n =
    if n < 10 then [Nat.digitChar n]
    else Nat.toDigits 10 (n / 10) ++ [Nat.digitChar (n % 10)] := by
  unfold Nat.toDigits
  by_cases h : n < 10
  · have h0 : n / 10 = 0 := by omega
    have hm : n % 10 = n := by omega
    simp [Nat.toDigitsCore, h0, hm, h]
  · rw [if_neg h]
    have h0 : ¬ n / 10 = 0 := by omega
    simp only [Nat.toDigitsCore]
    rw [if_neg h0, toDigitsCore_acc]
    rw [toDigitsCore_fuel (n / 10) n (n / 10 + 1) (by omega) (by omega)]
    rfl

lemma digitChar_toNat : ∀ d : ℕ, d < 10 → (Nat.digitChar d).toNat - 48 = d := by
  decide

lemma digitsVal_toDigits : ∀ n : ℕ, digitsVal (Nat.toDigits 10 n) = n := by
  intro n
  induction n using Nat.strong_induction_on with
  | _ n ih =>
    rw [toDigits10]
    by_cases h : n < 10
    · rw [if_pos h]
      simp [digitsVal, digitChar_toNat n h]
    · rw [if_neg h]
      have hstep : digitsVal (Nat.toDigits 10 (n / 10) ++ [Nat.digitChar (n % 10)])
          = 10 * digitsVal (Nat.toDigits 10 (n / 10)) + n % 10 := by
        unfold digitsVal
        rw [List.foldl_append]
        simp [digitChar_toNat (n % 10) (by omega)]
      rw [hstep, ih (n / 10) (by omega)]
      omega

lemma toString_nat_data (n : ℕ) : (toString n).data = Nat.toDigits 10 n := rfl

lemma data_append (s t : String) : (s ++ t).data = s.data ++ t.data := by
  cases s; cases t; rfl

lemma pathWithCount_injective (path : String) :
    Function.Injective (pathWithCount path) := by
  intro a b h
  unfold pathWithCount at h
  have h2 : (path ++ "_").data ++ (toString a).data
      = (path ++ "_").data ++ (toString b).data := by
    rw [← data_append, ← data_append, h]
  have h3 := List.append_cancel_left h2
  rw [toString_nat_data, toString_nat_data] at h3
  have := congrArg digitsVal h3
  rwa [digitsVal_toDigits, digitsVal_toDigits] at this

/-! ### Membership in the grid lattice -/

lemma mem_arange {a start stop step : ℕ} :
    a ∈ arange start stop step ↔
      ∃ i, i < (stop - start + step - 1) / step ∧ a = start + step * i := by
  simp [arange, List.mem_map, List.mem_range, eq_comm]

lemma mem_grid_points {p : ℕ × ℕ} {w h r : ℕ} :
    p ∈ grid_points w h r ↔
      p.1 ∈ arange r (w - r) (2 * r) ∧ p.2 ∈ arange r (h - r) (2 * r) := by
  cases p with
  | mk x y =>
    simp only [grid_points, List.mem_flatMap, List.mem_map]
    constructor
    · rintro ⟨y₂, hy, x₂, hx, h₂⟩
      obtain ⟨rfl, rfl⟩ : x₂ = x ∧ y₂ = y := by
        constructor <;> { have := congrArg Prod.fst h₂; have := congrArg Prod.snd h₂; simp_all }
      exact ⟨hx, hy⟩
    · rintro ⟨hx, hy⟩
      exact ⟨y, hy, x, hx, rfl⟩

/-- Every grid point for radius 10 has a 10-pixel margin to every image edge
(margins to the right and bottom are strict because `np.arange` excludes its
stop value). -/
lemma grid10_bounds {x y w h : ℕ} (hp : (x, y) ∈ grid_points w h 10) :
    10 ≤ x ∧ x + 10 < w ∧ 10 ≤ y ∧ y + 10 < h := by
  rw [mem_grid_points] at hp
  obtain ⟨hx, hy⟩ := hp
  rw [mem_arange] at hx hy
  obtain ⟨i, hi, rfl⟩ := hx
  obtain ⟨j, hj, rfl⟩ := hy
  omega

/-! ### `circle_sum` on all-background and all-foreground images -/

lemma circle_sum_background (img : Image) (r x y : ℕ)
    (h : ∀ y₂ x₂, y₂ < img.height → x₂ < img.width → img.pixel y₂ x₂ ≤ 200) :
    circle_sum img r x y = 0 := by
  unfold circle_sum
  apply Finset.sum_eq_zero
  intro yg hyg
  apply Finset.sum_eq_zero
  intro xg hxg
  have hb : binary_img img yg xg = 0 := by
    unfold binary_img
    rw [if_neg]
    exact not_lt.2 (h yg xg (Finset.mem_range.1 hyg) (Finset.mem_range.1 hxg))
  rw [hb, ite_self]

/-- In an all-foreground image the coordinates within distance `a² + b² ≤ 100`
of a disk center are bounded by the disk's bounding box. -/
lemma disk_coord_bounds {a b : ℤ} (h : a ^ 2 + b ^ 2 ≤ 100) :
    -10 ≤ a ∧ a ≤ 10 ∧ -10 ≤ b ∧ b ≤ 10 := by
  refine ⟨?_, ?_, ?_, ?_⟩ <;>
    nlinarith [sq_nonneg a, sq_nonneg b, sq_nonneg (a + 10), sq_nonneg (a - 10),
      sq_nonneg (b + 10), sq_nonneg (b - 10)]

/-- In an all-foreground image, a radius-10 disk centered at any point with a
10-pixel margin to every edge contains exactly 317 pixels, the number of
integer points with `a² + b² ≤ 10²`. -/
lemma circle_sum_foreground (img : Image) (x y : ℕ)
    (h : ∀ y₂ x₂, y₂ < img.height → x₂ < img.width → 200 < img.pixel y₂ x₂)
    (hx1 : 10 ≤ x) (hx2 : x + 10 < img.width)
    (hy1 : 10 ≤ y) (hy2 : y + 10 < img.height) :
    circle_sum img 10 x y = 317 := by
  unfold circle_sum
  rw [Finset.sum_congr rfl (fun yg hyg => Finset.sum_congr rfl (fun xg hxg => by
    have hb : binary_img img yg xg = 1 := by
      unfold binary_img
      rw [if_pos (h _ _ (Finset.mem_range.1 hyg) (Finset.mem_range.1 hxg))]
    rw [hb]))]
  rw [← Finset.sum_product', Finset.sum_boole]
  rw [show (317 : ℕ) = ((Finset.range 21 ×ˢ Finset.range 21).filter
      fun q => ((q.2 : ℤ) - 10) ^ 2 + ((q.1 : ℤ) - 10) ^ 2 ≤ ((10 : ℕ) : ℤ) ^ 2).card
    from by decide]
  refine Finset.card_nbij' (fun p => (p.1 - (y - 10), p.2 - (x - 10)))
    (fun q => (q.1 + (y - 10), q.2 + (x - 10))) ?_ ?_ ?_ ?_
  · intro p hp
    simp only [Finset.mem_filter, Finset.mem_product, Finset.mem_range] at hp ⊢
    obtain ⟨⟨hp1, hp2⟩, hc⟩ := hp
    have hpc : ((p.2 : ℤ) - x) ^ 2 + ((p.1 : ℤ) - y) ^ 2 ≤ 100 := by
      have h100 : (((10 : ℕ) : ℤ)) ^ 2 = 100 := by norm_num
      rw [h100] at hc; exact hc
    obtain ⟨ha1, ha2, hb1, hb2⟩ := disk_coord_bounds hpc
    refine ⟨⟨by omega, by omega⟩, ?_⟩
    have e1 : ((p.2 - (x - 10) : ℕ) : ℤ) - 10 = (p.2 : ℤ) - x := by omega
    have e2 : ((p.1 - (y - 10) : ℕ) : ℤ) - 10 = (p.1 : ℤ) - y := by omega
    rw [e1, e2]
    have h100 : (((10 : ℕ) : ℤ)) ^ 2 = 100 := by norm_num
    rw [h100]
    exact hpc
  · intro q hq
    simp only [Finset.mem_filter, Finset.mem_product, Finset.mem_range] at hq ⊢
    obtain ⟨⟨hq1, hq2⟩, hc⟩ := hq
    refine ⟨⟨by omega, by omega⟩, ?_⟩
    have e1 : ((q.2 + (x - 10) : ℕ) : ℤ) - x = (q.2 : ℤ) - 10 := by omega
    have e2 : ((q.1 + (y - 10) : ℕ) : ℤ) - y = (q.1 : ℤ) - 10 := by omega
    rw [e1, e2]
    exact hc
  · intro p hp
    simp only [Finset.mem_filter, Finset.mem_product, Finset.mem_range] at hp
    obtain ⟨⟨hp1, hp2⟩, hc⟩ := hp
    have hpc : ((p.2 : ℤ) - x) ^ 2 + ((p.1 : ℤ) - y) ^ 2 ≤ 100 := by
      have h100 : (((10 : ℕ) : ℤ)) ^ 2 = 100 := by norm_num
      rw [h100] at hc; exact hc
    obtain ⟨ha1, ha2, hb1, hb2⟩ := disk_coord_bounds hpc
    refine Prod.ext ?_ ?_ <;> simp only <;> omega
  · intro q hq
    refine Prod.ext ?_ ?_ <;> simp only <;> omega

/-- On an all-background image every grid point is accepted: the detector
returns the whole lattice. -/
lemma sphere_points_background (img : Image)
    (h : ∀ y x, y < img.height → x < img.width → img.pixel y x ≤ 200) :
    sphere_points img 10 50 = grid_points img.width img.height 10 := by
  unfold sphere_points
  apply List.filter_eq_self.2
  intro p hp
  unfold accepts
  rw [circle_sum_background img 10 p.1 p.2 h]
  decide

/-- On an all-foreground image no grid point is accepted (at the hard-coded
`radius = 10`, `thredhold = 50`): `317 ≥ 264`, the exact acceptance bound. -/
lemma sphere_points_foreground (img : Image)
    (h : ∀ y x, y < img.height → x < img.width → 200 < img.pixel y x) :
    sphere_points img 10 50 = [] := by
  unfold sphere_points
  rw [List.filter_eq_nil_iff]
  rintro ⟨x, y⟩ hp
  obtain ⟨h1, h2, h3, h4⟩ := grid10_bounds hp
  unfold accepts
  rw [circle_sum_foreground img x y h h1 h2 h3 h4]
  decide

/-! ### Behavior of the allocator's retry loop -/

/-- Characterization of a successful allocation: the issued identifier is the
first candidate at or after the starting counter that the predicate reports
free; the generator ends one past the issued suffix; all skipped suffixes were
reported taken. -/
lemma getUnusedLoop_ok (valid : String → Except PyError Bool) (path : String) :
    ∀ (fuel count count₂ : ℕ) (r : String),
    getUnusedLoop valid path fuel count = some (Except.ok r, count₂) →
    count < count₂ ∧ r = pathWithCount path (count₂ - 1) ∧
      valid r = Except.ok false ∧
      ∀ m, count ≤ m → m < count₂ - 1 →
        valid (pathWithCount path m) = Except.ok true := by
  intro fuel
  induction fuel with
  | zero => intro count count₂ r h; simp [getUnusedLoop] at h
  | succ f ih =>
    intro count count₂ r h
    rw [getUnusedLoop] at h
    cases hv : valid (pathWithCount path count) with
    | error e => rw [hv] at h; simp at h
    | ok b =>
      cases b with
      | true =>
        rw [hv] at h
        simp only at h
        obtain ⟨h1, h2, h3, h4⟩ := ih (count + 1) count₂ r h
        refine ⟨by omega, h2, h3, ?_⟩
        intro m hm1 hm2
        by_cases hm : m = count
        · subst hm; exact hv
        · exact h4 m (by omega) hm2
      | false =>
        rw [hv] at h
        simp only [Option.some.injEq, Prod.mk.injEq, Except.ok.injEq] at h
        obtain ⟨hr, hc⟩ := h
        subst hr
        subst hc
        refine ⟨by omega, by simp, hv, by omega⟩

/-- With an always-false predicate each call succeeds immediately: `n` calls
starting at counter `count` issue `path_count, ..., path_(count+n-1)` in
order and leave the counter at `count + n`. -/
lemma allocList_false (path : String) (f : ℕ) :
    ∀ (n count : ℕ),
    allocList (fun _ => Except.ok false) path (f + 1) n count
      = some ((List.range n).map (fun k => pathWithCount path (count + k)),
          count + n) := by
  intro n
  induction n with
  | zero => intro count; simp [allocList]
  | succ n ih =>
    intro count
    rw [allocList]
    have hstep : getUnusedLoop (fun _ => Except.ok false) path (f + 1) count
        = some (Except.ok (pathWithCount path count), count + 1) := by
      simp [getUnusedLoop]
    rw [hstep]
    simp only [ih (count + 1)]
    have hlist : (List.range (n + 1)).map (fun k => pathWithCount path (count + k))
        = pathWithCount path count
          :: (List.range n).map (fun k => pathWithCount path (count + 1 + k)) := by
      rw [List.range_succ_eq_map, List.map_cons, List.map_map]
      simp only [Nat.add_zero]
      congr 1
      apply List.map_congr_left
      intro k hk
      simp only [Function.comp_apply]
      congr 1
      omega
    rw [hlist]
    have harith : count + 1 + n = count + (n + 1) := by omega
    rw [harith]

/-- The exact value of the acceptance bound at the hard-coded parameters:
`3.14 * 10 * 10 - 50` evaluates in binary64 to exactly `264`. -/
lemma acceptBound_ten_fifty : (acceptBound 10 50).val = 264 := by
  rw [show acceptBound 10 50 = ⟨4644337115725824, -44⟩ from by decide]
  unfold F64.val
  norm_num

/-! ### Claim C1 -/

/-- C1 counterexample: for a 100×100 image at radius 10 the grid lattice has
4×4 = 16 points (`np.arange(10, 90, 20) = [10, 30, 50, 70]`), not 9×9 = 81 as
the claim states. -/
theorem C1_counterexample :
    (grid_points 100 100 10).length = 16 ∧ (grid_points 100 100 10).length ≠ 81 := by
  constructor <;> decide

/-- C1 (amended): for a 100×100 all-background image analyzed at radius 10,
threshold 50, the grid lattice contains 4×4 = 16 grid points, every one of
them is accepted as a candidate sphere point, and each has `circle_sum = 0`. -/
theorem C1_all_background_scenario (img : Image)
    (hw : img.width = 100) (hh : img.height = 100)
    (hbg : ∀ y x, y < img.height → x < img.width → img.pixel y x ≤ 200) :
    (grid_points 100 100 10).length = 16 ∧
    sphere_points img 10 50 = grid_points 100 100 10 ∧
    ∀ p ∈ grid_points 100 100 10, circle_sum img 10 p.1 p.2 = 0 := by
  refine ⟨by decide, ?_, ?_⟩
  · rw [sphere_points_background img hbg, hw, hh]
  · intro p hp
    exact circle_sum_background img 10 p.1 p.2 hbg

theorem C1_witness :
    (grid_points 100 100 10).length = 16 ∧
    sphere_points imgBg100 10 50 = grid_points 100 100 10 ∧
    ∀ p ∈ grid_points 100 100 10, circle_sum imgBg100 10 p.1 p.2 = 0 :=
  C1_all_background_scenario imgBg100 rfl rfl (fun _ _ _ _ => Nat.zero_le 200)

/-! ### Claim C8 -/

/-- C8: every accepted point is returned through the centering transform
`(x - width/2, height/2 - y)`, paired with the radius used, and a grid point
at `(width/2, height/2)` maps to Cartesian `(0, 0)`. -/
theorem C8_centering (img : Image) (radius thredhold : ℕ) :
    (gapDetect img radius thredhold).1
      = (sphere_points img radius thredhold).map
          (toCartesian img.width img.height) ∧
    (gapDetect img radius thredhold).2 = radius ∧
    ∀ w h x y : ℕ, 2 * x = w → 2 * y = h → toCartesian w h (x, y) = (0, 0) := by
  refine ⟨rfl, rfl, ?_⟩
  intro w h x y hx hy
  unfold toCartesian
  simp only [Prod.mk.injEq]
  constructor
  · have hw : (w : ℚ) = 2 * x := by exact_mod_cast hx.symm
    rw [hw]; ring
  · have hh : (h : ℚ) = 2 * y := by exact_mod_cast hy.symm
    rw [hh]; ring

theorem C8_witness : toCartesian 20 20 (10, 10) = (0, 0) :=
  (C8_centering imgBg100 10 50).2.2 20 20 10 10 (by decide) (by decide)

/-! ### Claim C9 -/

/-- C9: the detector is deterministic: running it twice on the same input
yields the same list, element for element and in the same order. -/
theorem C9_determinism (input input₂ : Option Image) (h : input = input₂) :
    _get_grid_points input = _get_grid_points input₂ := by
  rw [h]

theorem C9_witness : _get_grid_points (some imgBg100) = _get_grid_points (some imgBg100) :=
  C9_determinism (some imgBg100) (some imgBg100) rfl

/-! ### Claim C2 -/

/-- C2 counterexample: the grid point (10,10) of `imgW264` has
`circle_sum = 264`, which satisfies the spec's acceptance test
`264 < π·10² − 50 ≈ 264.159`, yet the code rejects it: the code's bound is
the binary64 value of `3.14*10*10 - 50`, which is exactly `264`, and the
comparison is strict.  So the claimed equivalence (and in particular
"circle_sum = 264 is accepted") is false. -/
theorem C2_counterexample :
    (10, 10) ∈ grid_points 100 100 10 ∧
    circle_sum imgW264 10 10 10 = 264 ∧
    acceptsSpec (circle_sum imgW264 10 10 10) 10 50 ∧
    (10, 10) ∉ sphere_points imgW264 10 50 := by
  refine ⟨by decide, by decide, ?_, ?_⟩
  · rw [show circle_sum imgW264 10 10 10 = 264 from by decide]
    unfold acceptsSpec pi_f64
    norm_num
  · intro hmem
    rw [sphere_points, List.mem_filter] at hmem
    have hacc : accepts imgW264 10 50 10 10 = true := by simpa using hmem.2
    rw [show accepts imgW264 10 50 10 10 = false from by decide] at hacc
    exact Bool.false_ne_true hacc

/-- C2 (amended): a grid point is accepted iff
`circle_sum < 3.14·radius·radius − thredhold` evaluated in binary64 with the
literal `3.14` (not π); at radius 10, threshold 50 the bound is exactly 264,
so a grid point whose `circle_sum` equals 264 is rejected (not accepted). -/
theorem C2_accept_bound (img : Image) (radius thredhold x y : ℕ) :
    ((x, y) ∈ sphere_points img radius thredhold ↔
      (x, y) ∈ grid_points img.width img.height radius ∧
        ((circle_sum img radius x y : ℚ) < (acceptBound radius thredhold).val)) ∧
    (acceptBound 10 50).val = 264 ∧
    ((x, y) ∈ grid_points img.width img.height 10 → circle_sum img 10 x y = 264 →
      (x, y) ∉ sphere_points img 10 50) := by
  have hiff : ∀ (r t : ℕ), accepts img r t x y = true ↔
      ((circle_sum img r x y : ℚ) < (acceptBound r t).val) := by
    intro r t
    unfold accepts
    rw [F64.intLt_iff, Int.cast_natCast]
  refine ⟨?_, acceptBound_ten_fifty, ?_⟩
  · rw [sphere_points, List.mem_filter]
    constructor
    · rintro ⟨hg, ha⟩
      exact ⟨hg, (hiff _ _).1 (by simpa using ha)⟩
    · rintro ⟨hg, ha⟩
      exact ⟨hg, by simpa using (hiff _ _).2 ha⟩
  · intro hg hcs hmem
    rw [sphere_points, List.mem_filter] at hmem
    have hacc := (hiff 10 50).1 (by simpa using hmem.2)
    rw [hcs, acceptBound_ten_fifty] at hacc
    norm_num at hacc

theorem C2_witness : (10, 10) ∉ sphere_points imgW264 10 50 :=
  (C2_accept_bound imgW264 10 50 10 10).2.2 (by decide) (by decide)

/-! ### Claim C6 -/

/-- C6 counterexample: a 9×9 all-foreground image analyzed at radius 4,
threshold 0 has the single grid point (4,4); its `circle_sum` is 49, the full
pixel count of the radius-4 disk; yet `49 < π·4² − 0 ≈ 50.27` fails the
claim's inequality, and the point IS accepted (`49 < 50.24`, the binary64
value of `3.14*4*4 - 0`), refuting "no grid point is accepted". -/
theorem C6_counterexample :
    grid_points 9 9 4 = [(4, 4)] ∧
    circle_sum imgFg9 4 4 4 = 49 ∧
    sphere_points imgFg9 4 0 = [(4, 4)] ∧
    acceptsSpec (circle_sum imgFg9 4 4 4) 4 0 := by
  refine ⟨by decide, by decide, by decide, ?_⟩
  rw [show circle_sum imgFg9 4 4 4 = 49 from by decide]
  unfold acceptsSpec pi_f64
  norm_num

/-- C6 (amended): at the code's hard-coded radius 10 and threshold 50, for
every all-foreground image no grid point is accepted: each grid point's
`circle_sum` equals 317, the full pixel count of its radius-10 disk, which is
not below the acceptance bound (exactly 264). -/
theorem C6_all_foreground (img : Image)
    (h : ∀ y x, y < img.height → x < img.width → 200 < img.pixel y x) :
    sphere_points img 10 50 = [] ∧
    ∀ x y, (x, y) ∈ grid_points img.width img.height 10 →
      circle_sum img 10 x y = 317 ∧ ¬ ((317 : ℚ) < (acceptBound 10 50).val) := by
  refine ⟨sphere_points_foreground img h, ?_⟩
  intro x y hp
  obtain ⟨h1, h2, h3, h4⟩ := grid10_bounds hp
  refine ⟨circle_sum_foreground img x y h h1 h2 h3 h4, ?_⟩
  rw [acceptBound_ten_fifty]
  norm_num

theorem C6_witness : sphere_points imgFg100 10 50 = [] :=
  (C6_all_foreground imgFg100 (fun _ _ _ _ => (by decide : (200 : ℕ) < 255))).1

/-! ### Claim C7 -/

/-- C7 counterexample: the claim swaps the two valid-input outcomes: an
all-background image yields the FULL candidate list (all 16 grid points, not
an empty one), and an all-foreground image yields the EMPTY list (not a full
one).  (On unreadable input the code returns `None` after printing, rather
than raising.) -/
theorem C7_counterexample :
    _get_grid_points (some imgBg100)
      = some ((grid_points 100 100 10).map (toCartesian 100 100), 10) ∧
    (grid_points 100 100 10).length = 16 ∧
    _get_grid_points (some imgFg100) = some ([], 10) := by
  refine ⟨?_, by decide, ?_⟩
  · show some (gapDetect imgBg100 10 50) = _
    unfold gapDetect
    rw [sphere_points_background imgBg100 (fun _ _ _ _ => Nat.zero_le 200)]
    rfl
  · show some (gapDetect imgFg100 10 50) = _
    unfold gapDetect
    rw [sphere_points_foreground imgFg100 (fun _ _ _ _ => (by decide : (200 : ℕ) < 255))]
    rfl

/-- C7 (amended): when the image cannot be loaded the operation returns `None`
(no points) after logging, rather than raising; an all-background image
yields the full candidate list and an all-foreground image yields the empty
list (at the hard-coded radius 10 / threshold 50). -/
theorem C7_failure_and_extremes :
    _get_grid_points none = none ∧
    (∀ img : Image, (∀ y x, y < img.height → x < img.width → img.pixel y x ≤ 200) →
      _get_grid_points (some img)
        = some ((grid_points img.width img.height 10).map
            (toCartesian img.width img.height), 10)) ∧
    (∀ img : Image, (∀ y x, y < img.height → x < img.width → 200 < img.pixel y x) →
      _get_grid_points (some img) = some ([], 10)) := by
  refine ⟨rfl, ?_, ?_⟩
  · intro img h
    show some (gapDetect img 10 50) = _
    unfold gapDetect
    rw [sphere_points_background img h]
  · intro img h
    show some (gapDetect img 10 50) = _
    unfold gapDetect
    rw [sphere_points_foreground img h]
    rfl

theorem C7_witness : _get_grid_points (some imgFg100) = some ([], 10) :=
  C7_failure_and_extremes.2.2 imgFg100 (fun _ _ _ _ => (by decide : (200 : ℕ) < 255))

/-! ### Claim C3 -/

/-- A predicate that raises (models `is_prim_path_valid` failing) exactly on
the candidate `"/a_1"` and reports everything else free. -/
def raiseOn1 : String → Except PyError Bool := fun s =>
  if s = pathWithCount "/a" 1 then Except.error PyError.lookupError
  else Except.ok false

/-- C3 counterexample: when the predicate raises on the candidate `/a_1`, the
error propagates but the generator has already advanced past it (counter ends
at 2); the next call for the same parent offers `/a_2`, not the failed
candidate `/a_1` again — contradicting "the candidate suffix whose predicate
test failed is offered again by the next call". -/
theorem C3_counterexample :
    getUnusedLoop raiseOn1 "/a" 5 1 = some (Except.error PyError.lookupError, 2) ∧
    getUnusedLoop raiseOn1 "/a" 5 2 = some (Except.ok (pathWithCount "/a" 2), 3) ∧
    pathWithCount "/a" 2 ≠ pathWithCount "/a" 1 := by
  refine ⟨by decide, by decide, by decide⟩

/-- C3 (amended): if the predicate raises during an allocation, the error
propagates, but the generator's advancement for the failing attempt IS
committed: the counter ends one past the failing candidate, which is
therefore never offered again; every candidate tried before it in this call
was reported taken. -/
theorem C3_error_commits (valid : String → Except PyError Bool) (path : String) :
    ∀ (fuel count count₂ : ℕ) (err : PyError),
    getUnusedLoop valid path fuel count = some (Except.error err, count₂) →
    ∃ n, count ≤ n ∧ count₂ = n + 1 ∧
      valid (pathWithCount path n) = Except.error err ∧
      ∀ m, count ≤ m → m < n → valid (pathWithCount path m) = Except.ok true := by
  intro fuel
  induction fuel with
  | zero => intro count count₂ err h; simp [getUnusedLoop] at h
  | succ f ih =>
    intro count count₂ err h
    rw [getUnusedLoop] at h
    cases hv : valid (pathWithCount path count) with
    | error e =>
      rw [hv] at h
      simp only [Option.some.injEq, Prod.mk.injEq, Except.error.injEq] at h
      obtain ⟨he, hc⟩ := h
      subst he; subst hc
      exact ⟨count, le_refl _, rfl, hv, by omega⟩
    | ok b =>
      cases b with
      | true =>
        rw [hv] at h
        simp only at h
        obtain ⟨n, h1, h2, h3, h4⟩ := ih (count + 1) count₂ err h
        refine ⟨n, by omega, h2, h3, ?_⟩
        intro m hm1 hm2
        by_cases hm : m = count
        · subst hm; exact hv
        · exact h4 m (by omega) hm2
      | false => rw [hv] at h; simp at h

theorem C3_witness :
    ∃ n, 1 ≤ n ∧ 2 = n + 1 ∧
      raiseOn1 (pathWithCount "/a" n) = Except.error PyError.lookupError ∧
      ∀ m, 1 ≤ m → m < n → raiseOn1 (pathWithCount "/a" m) = Except.ok true :=
  C3_error_commits raiseOn1 "/a" 5 1 2 PyError.lookupError (by decide)

/-! ### Claim C4 -/

/-- C4: N allocations for the same parent with an always-false predicate
return exactly `path_1, path_2, ..., path_N` in that order (leaving the
counter at N+1), with no duplicates. -/
theorem C4_sequence (path : String) (N fuel : ℕ) (hfuel : 0 < fuel) :
    allocList (fun _ => Except.ok false) path fuel N 1
      = some ((List.range N).map (fun k => pathWithCount path (k + 1)), N + 1) ∧
    ((List.range N).map (fun k => pathWithCount path (k + 1))).Nodup := by
  obtain ⟨f, rfl⟩ : ∃ f, fuel = f + 1 := ⟨fuel - 1, by omega⟩
  constructor
  · rw [allocList_false path f N 1]
    have h1 : (List.range N).map (fun k => pathWithCount path (1 + k))
        = (List.range N).map (fun k => pathWithCount path (k + 1)) := by
      apply List.map_congr_left
      intro k hk
      congr 1
      omega
    rw [h1, Nat.add_comm 1 N]
  · refine List.Nodup.map ?_ (List.nodup_range N)
    intro a b hab
    have := pathWithCount_injective path hab
    omega

theorem C4_witness :
    allocList (fun _ => Except.ok false) "/a" 3 2 1
      = some ((List.range 2).map (fun k => pathWithCount "/a" (k + 1)), 2 + 1) ∧
    ((List.range 2).map (fun k => pathWithCount "/a" (k + 1))).Nodup :=
  C4_sequence "/a" 2 3 (by decide)

/-! ### Claim C5 -/

/-- C5: across two successive successful calls with a non-failing predicate,
the issued suffixes strictly increase (`count₂ - 1 < count₃ - 1`, the two
issued suffixes); an issued identifier is never reissued; an identifier the
predicate reports as pre-existing is never issued, and every suffix skipped
over between calls was reported taken. -/
theorem C5_monotone_skip (vb : String → Bool) (path : String)
    (fuel₁ fuel₂ count count₂ count₃ : ℕ) (r₁ r₂ : String)
    (h₁ : getUnusedLoop (fun s => Except.ok (vb s)) path fuel₁ count
        = some (Except.ok r₁, count₂))
    (h₂ : getUnusedLoop (fun s => Except.ok (vb s)) path fuel₂ count₂
        = some (Except.ok r₂, count₃)) :
    count ≤ count₂ - 1 ∧ count₂ - 1 < count₃ - 1 ∧
    r₁ = pathWithCount path (count₂ - 1) ∧ r₂ = pathWithCount path (count₃ - 1) ∧
    r₁ ≠ r₂ ∧ vb r₁ = false ∧ vb r₂ = false ∧
    (∀ m, vb (pathWithCount path m) = true →
      r₁ ≠ pathWithCount path m ∧ r₂ ≠ pathWithCount path m) ∧
    (∀ m, count ≤ m → m < count₂ - 1 → vb (pathWithCount path m) = true) ∧
    (∀ m, count₂ ≤ m → m < count₃ - 1 → vb (pathWithCount path m) = true) := by
  obtain ⟨hc1, hr1, hv1, hs1⟩ := getUnusedLoop_ok _ path fuel₁ count count₂ r₁ h₁
  obtain ⟨hc2, hr2, hv2, hs2⟩ := getUnusedLoop_ok _ path fuel₂ count₂ count₃ r₂ h₂
  have hb1 : vb r₁ = false := by simpa using hv1
  have hb2 : vb r₂ = false := by simpa using hv2
  refine ⟨by omega, by omega, hr1, hr2, ?_, hb1, hb2, ?_, ?_, ?_⟩
  · rw [hr1, hr2]
    intro heq
    have := pathWithCount_injective path heq
    omega
  · intro m hm
    constructor
    · intro he; rw [he] at hb1; rw [hb1] at hm; exact Bool.false_ne_true hm
    · intro he; rw [he] at hb2; rw [hb2] at hm; exact Bool.false_ne_true hm
  · intro m ha hb; simpa using hs1 m ha hb
  · intro m ha hb; simpa using hs2 m ha hb

/-- The predicate reporting exactly `/a_2` as pre-existing. -/
def taken2 : String → Bool := fun s => decide (s = pathWithCount "/a" 2)

theorem C5_witness :
    (1 : ℕ) ≤ 2 - 1 ∧ (2 : ℕ) - 1 < 4 - 1 ∧
    "/a_1" = pathWithCount "/a" (2 - 1) ∧ "/a_3" = pathWithCount "/a" (4 - 1) ∧
    ("/a_1" : String) ≠ "/a_3" ∧ taken2 "/a_1" = false ∧ taken2 "/a_3" = false ∧
    (∀ m, taken2 (pathWithCount "/a" m) = true →
      "/a_1" ≠ pathWithCount "/a" m ∧ "/a_3" ≠ pathWithCount "/a" m) ∧
    (∀ m, 1 ≤ m → m < 2 - 1 → taken2 (pathWithCount "/a" m) = true) ∧
    (∀ m, 2 ≤ m → m < 4 - 1 → taken2 (pathWithCount "/a" m) = true) :=
  C5_monotone_skip taken2 "/a" 5 5 1 2 4 "/a_1" "/a_3" (by decide) (by decide)

/-! ### Claim C10 -/

/-- C10 counterexample: `"/a//"` (two trailing slashes) is stripped of only
one slash, so `add_sphere` allocates under `"/a//collision_sphere"` and issues
`"/a//collision_sphere_1"`, while `add_sphere` on the once-stripped `"/a/"`
issues `"/a/collision_sphere_1"` — different sphere paths, contradicting
"issues the same sphere path as calling add_sphere with that single trailing
slash removed". -/
theorem C10_counterexample :
    (add_sphere (fun _ => Except.ok false) SphereEditorState.init "/a//"
        (0, 0, 0) 1 2).map Prod.fst
      = some (Except.ok "/a//collision_sphere_1") ∧
    (add_sphere (fun _ => Except.ok false) SphereEditorState.init "/a/"
        (0, 0, 0) 1 2).map Prod.fst
      = some (Except.ok "/a/collision_sphere_1") ∧
    ("/a//collision_sphere_1" : String) ≠ "/a/collision_sphere_1" := by
  refine ⟨by decide, by decide, by decide⟩

/-- C10 (amended): for any non-empty `link_path` ending in `'/'`, `add_sphere`
strips exactly one trailing slash and allocates under the once-stripped path;
it coincides with `add_sphere` on the stripped path (same issued path, same
registry entry, same final state) exactly when the stripped path is itself
non-empty and has no further trailing slash — i.e. when the original ended in
a single slash. -/
theorem C10_single_strip (vb : String → Bool) (st : SphereEditorState)
    (center : ℚ × ℚ × ℚ) (radius : ℚ) (fuel : ℕ) (s : String)
    (hne : s ≠ "") (hsl : s.back = '/') :
    (add_sphere (fun t => Except.ok (vb t)) st s center radius fuel
      = match _get_unused_collision_sphere_path (fun t => Except.ok (vb t))
            st._sphere_path_generators (s.dropRight 1) fuel with
        | none => none
        | some (Except.error e, gens₂) =>
            some (Except.error e, { st with _sphere_path_generators := gens₂ })
        | some (Except.ok sphere_path, gens₂) =>
            some (Except.ok sphere_path,
              ⟨gens₂, registrySet st.path_2_spheres sphere_path
                ⟨sphere_path, center, radius, (1, 1, 0)⟩⟩)) ∧
    (s.dropRight 1 ≠ "" → (s.dropRight 1).back ≠ '/' →
      add_sphere (fun t => Except.ok (vb t)) st s center radius fuel
        = add_sphere (fun t => Except.ok (vb t)) st (s.dropRight 1)
            center radius fuel) := by
  constructor
  · simp only [add_sphere, if_neg hne, if_pos hsl]
  · intro hs2 hs3
    simp only [add_sphere, if_neg hne, if_pos hsl, if_neg hs2, if_neg hs3]

theorem C10_witness :
    add_sphere (fun _ => Except.ok false) SphereEditorState.init "/a/"
        (0, 0, 0) 1 2
      = add_sphere (fun _ => Except.ok false) SphereEditorState.init "/a"
          (0, 0, 0) 1 2 :=
  (C10_single_strip (fun _ => false) SphereEditorState.init (0, 0, 0) 1 2 "/a/"
    (by decide) (by decide)).2 (by decide) (by decide)
